/-
Verification of the session-transport and capability-registry layer of the
mcp-typescript-starter server.

The development shallowly embeds the TypeScript sources:
  * `src/server.ts`   — `createServer` (Server Factory)
  * `src/tools.ts`    — `registerTools`, the `load_bonus_tool` handler, the
                        `bonus_calculator` handler, the `long_task` handler,
                        and the process-wide `bonusToolLoaded` flag
  * `src/stdio.ts`    — the HTTP `app.all('/mcp')` handler (Session Transport
                        Manager), the session `Map`, and the `PORT` constant
  * `src/prompts.ts`  — the `greet` prompt handler

Stateful code is embedded as explicit state passing; the event ordering that
matters (response sent vs. table insert, progress notifications vs. final
result) is recorded as explicit event traces.
-/
import Mathlib

/-! ## Server Factory (`src/server.ts`) and tool registry (`src/tools.ts`) -/

/-- A protocol-handling server instance.  For the claims at hand only the set
of registered callable tools is observable, so an instance is embedded as the
list of its registered tool names (in registration order). -/
structure Server where
  tools : List String
  deriving DecidableEq, Repr

/-- Embedding of `createServer` (`src/server.ts:71-92`) followed by
`registerTools` (`src/tools.ts:37-45`).  `registerTools` registers exactly the
seven statically-known tools, in this order; the body never consults the
process-wide `bonusToolLoaded` flag, so the result does not depend on the
`bonusToolLoaded` argument (which embeds the ambient process state the
TypeScript function could have read). -/
def createServer (bonusToolLoaded : Bool) : Server :=
  let _ := bonusToolLoaded
  { tools := ["hello", "get_weather", "ask_llm", "long_task",
              "load_bonus_tool", "confirm_action", "get_feedback"] }

/-- Result of one invocation of the `load_bonus_tool` handler: the (possibly
extended) server instance, the new value of the process-wide flag, whether a
`tools/list_changed` notification was sent, and the response text. -/
structure LoadBonusOut where
  server : Server
  flag : Bool
  notified : Bool
  text : String
  deriving DecidableEq, Repr

/-- Embedding of the `load_bonus_tool` handler (`src/tools.ts:212-268`).
If `bonusToolLoaded` is already `true` it returns the already-loaded message
and changes nothing; otherwise it registers `bonus_calculator` on this
instance, sets the flag to `true`, sends the list-changed notification and
returns the loaded message. -/
def runLoadBonus (server : Server) (bonusToolLoaded : Bool) : LoadBonusOut :=
  if bonusToolLoaded then
    { server := server, flag := bonusToolLoaded, notified := false,
      text := "Bonus tool is already loaded! Try calling 'bonus_calculator'." }
  else
    { server := { tools := server.tools ++ ["bonus_calculator"] },
      flag := true, notified := true,
      text := "Bonus tool 'bonus_calculator' has been loaded! The tools list has been updated." }

/-! ## Session Transport Manager (`src/stdio.ts`, HTTP entrypoint) -/

/-- HTTP request method reaching `app.all('/mcp')`. -/
inductive Method where
  | get
  | post
  | delete
  | other
  deriving DecidableEq, Repr

/-- One inbound HTTP exchange at the `/mcp` endpoint: the method, the
`mcp-session-id` header (session tokens are embedded as naturals), and
whether the body is recognized as an `initialize` handshake. -/
structure Exchange where
  method : Method
  sessionId : Option Nat
  isInit : Bool
  deriving DecidableEq, Repr

/-- Response summary: HTTP status and the `mcp-session-id` header value (the
token a caller can read from the response of a session-creating POST). -/
structure HttpResp where
  status : Nat
  token : Option Nat
  deriving DecidableEq, Repr

/-- Observable events of one `/mcp` handler activation, in program order:
`responded s t` — the response (status `s`, optional session header `t`) is
sent to the caller; `inserted t` — the transports `Map` gains key `t`;
`removed t` — the transports `Map` loses key `t`. -/
inductive Ev where
  | responded (status : Nat) (token : Option Nat)
  | inserted (token : Nat)
  | removed (token : Nat)
  deriving DecidableEq, Repr

/-- Process state of the HTTP entrypoint: the process-wide `bonusToolLoaded`
flag, the `transports` map (association list token ↦ bound server instance,
keys unique), and a counter supplying the next fresh token
(`crypto.randomUUID()` is embedded as a fresh-token source). -/
structure Sys where
  flag : Bool
  table : List (Nat × Server)
  nextTok : Nat
  deriving DecidableEq, Repr

/-- `transports.has t`. -/
def hasTok (table : List (Nat × Server)) (t : Nat) : Bool :=
  table.any (fun p => p.1 = t)

/-- State at process startup: flag `false` (`src/tools.ts:32`), empty session
table, fresh-token counter at 0. -/
def initSys : Sys := { flag := false, table := [], nextTok := 0 }

/-- Embedding of the `app.all('/mcp')` handler (`src/stdio.ts:68-132`),
returning the post-state, the response, and the trace of observable events in
program order.

GET: missing or unknown token → 400; known token → the SSE stream is bound
(no state change, embedded as a 200 response).

POST with a known token: dispatch to the existing transport (no state
change).  POST with no/unknown token: a fresh server and transport are
created; `transport.handleRequest` assigns a session id and sends the
response carrying it only when the body is an `initialize` handshake
(otherwise it rejects with 400 and no session id is assigned); only **after**
`handleRequest` returns does the code store the transport in the map
(guarded by `transport.sessionId && !transports.has(...)`).

DELETE: known token → close, remove, 200; otherwise 404.

Any other method → 405. -/
def handleHttp (e : Exchange) (s : Sys) : Sys × HttpResp × List Ev :=
  match e.method with
  | .get =>
    match e.sessionId with
    | none => (s, ⟨400, none⟩, [.responded 400 none])
    | some t =>
      if hasTok s.table t then
        (s, ⟨200, none⟩, [.responded 200 none])
      else
        (s, ⟨400, none⟩, [.responded 400 none])
  | .post =>
    match e.sessionId with
    | some t =>
      if hasTok s.table t then
        (s, ⟨200, none⟩, [.responded 200 none])
      else
        if e.isInit then
          let tok := s.nextTok
          let srv := createServer s.flag
          if hasTok s.table tok then
            ({ s with nextTok := s.nextTok + 1 },
             ⟨200, some tok⟩, [.responded 200 (some tok)])
          else
            ({ s with table := s.table ++ [(tok, srv)], nextTok := s.nextTok + 1 },
             ⟨200, some tok⟩, [.responded 200 (some tok), .inserted tok])
        else
          (s, ⟨400, none⟩, [.responded 400 none])
    | none =>
      if e.isInit then
        let tok := s.nextTok
        let srv := createServer s.flag
        if hasTok s.table tok then
          ({ s with nextTok := s.nextTok + 1 },
           ⟨200, some tok⟩, [.responded 200 (some tok)])
        else
          ({ s with table := s.table ++ [(tok, srv)], nextTok := s.nextTok + 1 },
           ⟨200, some tok⟩, [.responded 200 (some tok), .inserted tok])
      else
        (s, ⟨400, none⟩, [.responded 400 none])
  | .delete =>
    match e.sessionId with
    | some t =>
      if hasTok s.table t then
        ({ s with table := s.table.filter (fun p => p.1 ≠ t) },
         ⟨200, none⟩, [.removed t, .responded 200 none])
      else
        (s, ⟨404, none⟩, [.responded 404 none])
    | none => (s, ⟨404, none⟩, [.responded 404 none])
  | .other => (s, ⟨405, none⟩, [.responded 405 none])

/-! ## System-level operations (for the flag invariant) -/

/-- A callable unit invoked on a live session.  Only `load_bonus_tool`
touches the process-wide flag or a server's registry; every other handler in
`src/tools.ts` (hello, get_weather, ask_llm, long_task, confirm_action,
get_feedback) only produces a response. -/
inductive ToolCall where
  | loadBonus
  | hello
  | getWeather
  | askLlm
  | longTask
  | confirmAction
  | getFeedback
  deriving DecidableEq, Repr

/-- One operation of the whole system: an HTTP exchange at `/mcp`, or a tool
invocation delivered to the session bound to token `tok`. -/
inductive SysOp where
  | http (e : Exchange)
  | callTool (tok : Nat) (c : ToolCall)
  deriving DecidableEq, Repr

/-- Effect of a tool invocation on process state.  `load_bonus_tool` runs
`runLoadBonus` against the addressed session's bound instance and the shared
flag; a call addressed to a dead token never reaches a handler; all other
tools leave the process state unchanged. -/
def applyTool (s : Sys) (tok : Nat) : ToolCall → Sys
  | .loadBonus =>
    match (s.table.filter (fun p => p.1 = tok)).head? with
    | none => s
    | some p =>
      let r := runLoadBonus p.2 s.flag
      { s with flag := r.flag,
               table := s.table.map (fun q => if q.1 = tok then (q.1, r.server) else q) }
  | _ => s

/-- One step of the whole system. -/
def sysStep (s : Sys) : SysOp → Sys
  | .http e => (handleHttp e s).1
  | .callTool tok c => applyTool s tok c

/-! ## Shared helper lemmas -/

/-- The `/mcp` handler never writes the `bonusToolLoaded` flag. -/
theorem handleHttp_flag (e : Exchange) (s : Sys) :
    ((handleHttp e s).1).flag = s.flag := by
  rcases e with ⟨m, sid, ini⟩
  cases m <;> cases sid <;>
    simp only [handleHttp] <;>
    repeat' first | rfl | split

/-- A key filtered out of an association list is no longer found (stated
with the filter predicate in simp-normal form). -/
theorem hasTok_filter_ne (table : List (Nat × Server)) (t : Nat) :
    hasTok (table.filter (fun p => !decide (p.1 = t))) t = false := by
  induction table with
  | nil => rfl
  | cons p rest ih =>
    by_cases h : p.1 = t
    · simp only [hasTok, List.filter, h] at ih ⊢
      simp [ih]
    · simp only [hasTok, List.filter, h] at ih ⊢
      simp [h, ih]

/-! ## `long_task` handler (`src/tools.ts:170-193`) -/

/-- Observable events of one `long_task` invocation, in program order:
`progress p total` — a `notifications/progress` notification with fields
`progress = p`, `total = total`; `sleep` — the 1-second timer await;
`done text` — the final completion response. -/
inductive LtEv where
  | progress (p : ℚ) (total : ℚ)
  | sleep
  | done (text : String)
  deriving DecidableEq, Repr

/-- Embedding of the `long_task` handler: `numSteps = steps ?? 5`; for each
`i < numSteps` it awaits `sendNotification` with `progress = i / numSteps`,
`total = 1.0`, then awaits a 1-second timer; finally it produces the
completion response. -/
def longTaskTrace (taskName : String) (steps : Option ℕ) : List LtEv :=
  let numSteps := steps.getD 5
  ((List.range numSteps).flatMap
      (fun i => [LtEv.progress ((i : ℚ) / (numSteps : ℚ)) 1, LtEv.sleep]))
    ++ [LtEv.done ("Task \"" ++ taskName ++ "\" completed successfully after "
                    ++ toString numSteps ++ " steps!")]

/-- The progress values of a `long_task` trace, in emission order. -/
def progressValues (tr : List LtEv) : List ℚ :=
  tr.filterMap (fun ev => match ev with
    | LtEv.progress p _ => some p
    | _ => none)

/-- Checks that every progress event lies strictly before the first
completion response: from the first `done` event onward, no progress event
occurs. -/
def progressBeforeDone (tr : List LtEv) : Bool :=
  (tr.dropWhile (fun ev => match ev with
      | LtEv.done _ => false
      | _ => true)).all (fun ev => match ev with
      | LtEv.progress _ _ => false
      | _ => true)

/-! ## `PORT` configuration (`src/stdio.ts:54`) -/

/-- Whitespace skipped by JavaScript `parseInt` (the common ASCII cases). -/
def isWsChar (c : Char) : Bool :=
  c = ' ' || c = '\t' || c = '\n' || c = '\r' || c = '\x0b' || c = '\x0c'

/-- Value of a list of decimal digit characters, most significant first. -/
def digitsVal (cs : List Char) : ℕ :=
  cs.foldl (fun a c => 10 * a + (c.toNat - 48)) 0

/-- Embedding of JavaScript `parseInt(s, 10)`: skip leading whitespace, read
an optional sign, then the longest prefix of decimal digits; the result is
`NaN` (embedded as `none`) when that prefix is empty. -/
def jsParseInt (s : String) : Option ℤ :=
  match s.data.dropWhile isWsChar with
  | [] => none
  | c :: rest =>
    if c = '-' then
      let d := rest.takeWhile Char.isDigit
      if d = [] then none else some (-(digitsVal d : ℤ))
    else if c = '+' then
      let d := rest.takeWhile Char.isDigit
      if d = [] then none else some ((digitsVal d : ℤ))
    else
      let d := (c :: rest).takeWhile Char.isDigit
      if d = [] then none else some ((digitsVal d : ℤ))

/-- JavaScript `v || d` on an optional string: `undefined` and the empty
string are falsy. -/
def jsOrString (v : Option String) (d : String) : String :=
  match v with
  | none => d
  | some s => if s = "" then d else s

/-- Embedding of `const PORT = parseInt(process.env.PORT || '3000', 10)`
(`src/stdio.ts:54`): the port number passed to `app.listen`, or `none` when
the computed value is `NaN` (in which case the listener does not bind). -/
def portValue (env : Option String) : Option ℤ :=
  jsParseInt (jsOrString env "3000")

/-! ## `bonus_calculator` handler (`src/tools.ts:239-249`) -/

/-- The four operations accepted by the `bonus_calculator` input schema
(`z.enum(['add', 'subtract', 'multiply', 'divide'])`). -/
inductive CalcOp where
  | add
  | subtract
  | multiply
  | divide
  deriving DecidableEq, Repr

/-- Embedding of the `bonus_calculator` handler body: the `ops` record is
built (with `divide` guarded by `b !== 0`, yielding `NaN` — embedded as
`none` — at `b = 0`) and the entry for the requested operation is selected.
Numbers are idealized as rationals. -/
def bonusCalcHandler (a b : ℚ) (op : CalcOp) : Option ℚ :=
  let addV := some (a + b)
  let subV := some (a - b)
  let mulV := some (a * b)
  let divV := if b ≠ 0 then some (a / b) else none
  match op with
  | .add => addV
  | .subtract => subV
  | .multiply => mulV
  | .divide => divV

/-- Modelled from the spec claim's words: the exact arithmetic result of the
chosen operation, for comparison with `bonusCalcHandler`. -/
def specExactResult (a b : ℚ) : CalcOp → ℚ
  | .add => a + b
  | .subtract => a - b
  | .multiply => a * b
  | .divide => a / b

/-! ## `greet` prompt handler (`src/prompts.ts`, `registerGreetPrompt`) -/

/-- A JavaScript value observable from the `styles[...]` lookup: an own
string property, or a member inherited from `Object.prototype` (a function,
or the prototype object for `__proto__`). -/
inductive JsVal where
  | str (s : String)
  | protoMember (name : String)
  deriving DecidableEq, Repr

/-- The property names every plain object literal inherits from
`Object.prototype` (so `styles[k]` is defined — and truthy — for these `k`
even though they are not own keys of the record). -/
def objectProtoKeys : List String :=
  ["constructor", "hasOwnProperty", "isPrototypeOf", "propertyIsEnumerable",
   "toLocaleString", "toString", "valueOf", "__proto__",
   "__defineGetter__", "__defineSetter__", "__lookupGetter__", "__lookupSetter__"]

/-- JavaScript truthiness of such a value: the empty string is falsy;
inherited members (functions / the prototype object) are truthy. -/
def jsTruthy : JsVal → Bool
  | .str s => !(s = "")
  | .protoMember _ => true

/-- Embedding of a JavaScript property read `obj[key]` on an object literal
with own string properties `own`: own properties shadow the prototype chain;
otherwise the `Object.prototype` members are found; otherwise `undefined`. -/
def jsIndex (own : List (String × String)) (key : String) : Option JsVal :=
  match own.lookup key with
  | some v => some (.str v)
  | none => if key ∈ objectProtoKeys then some (.protoMember key) else none

/-- JavaScript `x || d`. -/
def jsOrElse (v : Option JsVal) (d : JsVal) : JsVal :=
  match v with
  | some x => if jsTruthy x then x else d
  | none => d

/-- The own properties of the `styles` record in the `greet` prompt handler
(`src/prompts.ts:134-138`). -/
def greetStyles (name : String) : List (String × String) :=
  [("formal", "Please compose a formal, professional greeting for " ++ name ++ "."),
   ("casual", "Write a casual, friendly hello to " ++ name ++ "."),
   ("enthusiastic", "Create an excited, enthusiastic greeting for " ++ name ++ "!")]

/-- The casual-style message (`styles.casual`). -/
def casualGreeting (name : String) : String :=
  "Write a casual, friendly hello to " ++ name ++ "."

/-- Embedding of the `greet` prompt handler body
(`const text = styles[style || 'casual'] || styles.casual`): the produced
message text as a JavaScript value. -/
def greetPromptText (name : String) (style : Option String) : JsVal :=
  let key := match style with
    | none => "casual"
    | some s => if s = "" then "casual" else s
  jsOrElse (jsIndex (greetStyles name) key) (.str (casualGreeting name))

/-! ## Claim C2 — Server Factory -/

/-- C2 (counterexample): the claim "the returned server instance has the
bonus calculator unit attached if and only if the dynamically-loaded
capability flag was already set at the time that instance's registry
attachment runs" is false at `flag = true`: `createServer` with the flag
already set still does not attach `bonus_calculator`, because `registerTools`
never consults the flag. -/
theorem createServer_bonus_not_attached_cex :
    "bonus_calculator" ∉ (createServer true).tools := by
  decide

/-- C2 (amended): `createServer` never fails (it is a total function), reads
and mutates no shared state — its result is independent of the
`bonusToolLoaded` flag — and the returned instance never has the bonus
calculator attached at creation: exactly the seven statically-registered
tools are present.  The bonus unit only ever appears on an instance through
that instance's own later `load_bonus_tool` invocation. -/
theorem createServer_pure_no_bonus (flag : Bool) :
    createServer flag = createServer false ∧
    "bonus_calculator" ∉ (createServer flag).tools ∧
    (createServer flag).tools =
      ["hello", "get_weather", "ask_llm", "long_task",
       "load_bonus_tool", "confirm_action", "get_feedback"] := by
  cases flag <;> exact ⟨rfl, by decide, rfl⟩

/-! ## Claim C5 — load-bonus idempotence -/

/-- C5 (counterexample): the claim fails for a server instance living in a
process whose flag is already set (because another session loaded the bonus
tool first): both invocations of `load_bonus_tool` on such an instance take
the already-loaded branch, so zero — not exactly one — `bonus_calculator`
units end up registered on it. -/
theorem load_bonus_twice_zero_cex :
    ((runLoadBonus (runLoadBonus (createServer true) true).server
        (runLoadBonus (createServer true) true).flag).server.tools.count
      "bonus_calculator") ≠ 1 := by
  decide

/-- C5 (amended): provided the process-wide flag is still false at the first
invocation, invoking `load_bonus_tool` twice in sequence on the same
factory-produced instance leaves exactly one `bonus_calculator` registered:
the first invocation registers it and sets the flag, and the second returns
the already-loaded message and changes neither the registry nor the flag
(and sends no list-changed notification). -/
theorem load_bonus_twice_idempotent (f : Bool) :
    (runLoadBonus (createServer f) false).server.tools.count "bonus_calculator" = 1 ∧
    (runLoadBonus (createServer f) false).flag = true ∧
    (runLoadBonus (runLoadBonus (createServer f) false).server
        (runLoadBonus (createServer f) false).flag).server
      = (runLoadBonus (createServer f) false).server ∧
    (runLoadBonus (runLoadBonus (createServer f) false).server
        (runLoadBonus (createServer f) false).flag).flag = true ∧
    (runLoadBonus (runLoadBonus (createServer f) false).server
        (runLoadBonus (createServer f) false).flag).notified = false ∧
    (runLoadBonus (runLoadBonus (createServer f) false).server
        (runLoadBonus (createServer f) false).flag).text
      = "Bonus tool is already loaded! Try calling 'bonus_calculator'." ∧
    (runLoadBonus (runLoadBonus (createServer f) false).server
        (runLoadBonus (createServer f) false).flag).server.tools.count
      "bonus_calculator" = 1 := by
  cases f <;> decide

/-! ## Claim C7 — long_task progress trace -/

/-- C7: with the default 5 steps, `long_task` emits exactly the five progress
notifications 0/5, 1/5, 2/5, 3/5, 4/5 (each with total 1), in strictly
increasing step order with no gaps and no duplicates, and all of them are
emitted before the final completion response. -/
theorem long_task_progress_trace (taskName : String) :
    progressValues (longTaskTrace taskName none) = [0, 1/5, 2/5, 3/5, 4/5] ∧
    List.Chain' (· < ·) (progressValues (longTaskTrace taskName none)) ∧
    progressBeforeDone (longTaskTrace taskName none) = true := by
  have hr : List.range 5 = [0, 1, 2, 3, 4] := rfl
  have h1 : progressValues (longTaskTrace taskName none)
      = [0, 1/5, 2/5, 3/5, 4/5] := by
    simp [longTaskTrace, progressValues, hr]
  refine ⟨h1, ?_, ?_⟩
  · rw [h1]
    simp [List.chain'_cons]
    norm_num
  · simp [longTaskTrace, progressBeforeDone, hr]

/-! ## Claim C9 — bonus_calculator totality -/

/-- C9: the `bonus_calculator` handler is total and never throws (it is a
function defined on all inputs): the result is NaN exactly when the operation
is `divide` with `b = 0` (the guard `b !== 0` prevents the division), and in
every other case it is the exact arithmetic result of the chosen operation. -/
theorem bonus_calculator_total (a b : ℚ) (op : CalcOp) :
    (bonusCalcHandler a b op = none ↔ (op = CalcOp.divide ∧ b = 0)) ∧
    (∀ q, bonusCalcHandler a b op = some q → q = specExactResult a b op) := by
  cases op <;> by_cases hb : b = 0 <;>
    simp [bonusCalcHandler, specExactResult, hb]

/-- Witness for C9: concrete instances — 6 multiply 3 yields exactly 18, and
6 divide 0 yields NaN. -/
theorem bonus_calculator_total_witness :
    (18 : ℚ) = specExactResult 6 3 CalcOp.multiply ∧
    bonusCalcHandler 6 0 CalcOp.divide = none :=
  ⟨(bonus_calculator_total 6 3 CalcOp.multiply).2 18 (by norm_num [bonusCalcHandler]),
   (bonus_calculator_total 6 0 CalcOp.divide).1.mpr ⟨rfl, rfl⟩⟩

/-! ## Claim C10 — greet prompt style fallback -/

/-- C10 (counterexample): the claim "every style argument that is not one of
the known style keys falls back to the casual-style message" is false at
`style = "constructor"`: the lookup `styles[style]` finds the member
inherited from `Object.prototype`, which is truthy, so the `|| styles.casual`
fallback does not apply and the handler does not produce the casual
message. -/
theorem greet_proto_key_cex :
    greetPromptText "Ada" (some "constructor") ≠ JsVal.str (casualGreeting "Ada") ∧
    greetPromptText "Ada" (some "constructor") = JsVal.protoMember "constructor" := by
  decide

/-- C10 (amended): for every name, a style argument that is absent, empty, or
not one of the known style keys ('formal', 'casual', 'enthusiastic') *and*
not the name of an `Object.prototype` member silently falls back to the
casual-style message for that name. -/
theorem greet_unknown_style_casual (name : String) (style : Option String)
    (h : style = none ∨ ∃ s, style = some s ∧
          s ∉ ["formal", "casual", "enthusiastic"] ∧ s ∉ objectProtoKeys) :
    greetPromptText name style = JsVal.str (casualGreeting name) := by
  have hne : ("Write a casual, friendly hello to " ++ name ++ ".") ≠ "" := by
    intro hc
    have h0 := congrArg String.length hc
    simp [String.length_append] at h0
    exact absurd h0.2 (by decide)
  rcases h with rfl | ⟨s, rfl, hk, hp⟩
  · simp [greetPromptText, jsIndex, greetStyles, List.lookup, jsOrElse, jsTruthy,
          casualGreeting, hne]
  · simp only [List.mem_cons, List.not_mem_nil, or_false, not_or] at hk
    obtain ⟨h1, h2, h3⟩ := hk
    by_cases hs : s = ""
    · subst hs
      simp [greetPromptText, jsIndex, greetStyles, List.lookup, jsOrElse, jsTruthy,
            casualGreeting, hne]
    · have hb1 : (s == "formal") = false := beq_eq_false_iff_ne.mpr h1
      have hb2 : (s == "casual") = false := beq_eq_false_iff_ne.mpr h2
      have hb3 : (s == "enthusiastic") = false := beq_eq_false_iff_ne.mpr h3
      simp [greetPromptText, hs, jsIndex, greetStyles, List.lookup, jsOrElse,
            jsTruthy, casualGreeting, hb1, hb2, hb3, hp]

/-- Witness for C10: the unknown style "pirate" falls back to the casual
greeting for "Ada". -/
theorem greet_unknown_style_casual_witness :
    greetPromptText "Ada" (some "pirate") = JsVal.str (casualGreeting "Ada") :=
  greet_unknown_style_casual "Ada" (some "pirate")
    (Or.inr ⟨"pirate", rfl, by decide, by decide⟩)

/-! ## Claim C8 — PORT configuration -/

/-- C8 (counterexample): the claim "the listener binds to port 3000 when the
PORT variable is unparseable as an integer" is false at `PORT=abc`:
`parseInt('abc', 10)` is NaN (embedded as `none`), not 3000, so the listener
does not bind to 3000 (`app.listen(NaN)` is a startup failure, not a
fallback). -/
theorem port_unparseable_not_3000_cex :
    portValue (some "abc") ≠ some 3000 ∧ portValue (some "abc") = none := by
  decide

/-- A decimal digit is not parseInt whitespace and not a sign character. -/
theorem isDigit_not_special (c : Char) (h : c.isDigit = true) :
    isWsChar c = false ∧ c ≠ '-' ∧ c ≠ '+' := by
  refine ⟨?_, ?_, ?_⟩
  · by_contra hw
    simp only [Bool.not_eq_false, isWsChar, Bool.or_eq_true,
               decide_eq_true_eq] at hw
    rcases hw with ((((hc | hc) | hc) | hc) | hc) | hc <;>
      (subst hc; exact absurd h (by decide))
  · intro hc; subst hc; exact absurd h (by decide)
  · intro hc; subst hc; exact absurd h (by decide)

/-- Dropping while a predicate holds skips over a prefix all of whose
elements satisfy it. -/
theorem dropWhile_append_of_all {α : Type} (p : α → Bool) (ws r : List α)
    (h : ∀ c ∈ ws, p c = true) : (ws ++ r).dropWhile p = r.dropWhile p := by
  induction ws with
  | nil => simp
  | cons a l ih =>
    simp [List.dropWhile_cons, h a (by simp),
          ih (fun c hc => h c (by simp [hc]))]

/-- The longest matching prefix of a matching run followed by a
non-matching head is exactly the run. -/
theorem takeWhile_append_not_head {α : Type} (p : α → Bool) (ds tl : List α)
    (hds : ∀ c ∈ ds, p c = true) (htl : ∀ c, tl.head? = some c → p c = false) :
    (ds ++ tl).takeWhile p = ds := by
  induction ds with
  | nil =>
    cases tl with
    | nil => rfl
    | cons c rest => simp [List.takeWhile_cons, htl c rfl]
  | cons a l ih =>
    simp [List.takeWhile_cons, hds a (by simp),
          ih (fun c hc => hds c (by simp [hc]))]

/-- A list whose head does not satisfy the predicate has empty takeWhile. -/
theorem takeWhile_eq_nil_of_head {α : Type} (p : α → Bool) (l : List α)
    (h : ∀ c, l.head? = some c → p c = false) : l.takeWhile p = [] := by
  cases l with
  | nil => rfl
  | cons a l => simp [List.takeWhile_cons, h a rfl]

/-- C8 (amended), as a full characterization over arbitrary values: the port
passed to `app.listen` is 3000 when the PORT variable is unset or set to the
empty string; when the value consists of optional leading whitespace `ws`,
an optional sign, the longest leading decimal-digit run `ds` (non-empty, and
maximal because the following `tl` does not start with a digit), and an
arbitrary tail `tl`, the port is the (signed) value of that digit run —
covering values such as "8080", " 8080", "+8080" and "80abc"; and when the
non-empty value has no leading integer at all (after optional whitespace it
is exhausted, or starts with a non-digit non-sign character, or with a sign
not followed by a digit), the computed value is NaN and the listener does
not fall back to 3000. -/
theorem port_env_semantics (s : String) (ws ds tl : List Char)
    (hws : ∀ c ∈ ws, isWsChar c = true)
    (hds : ∀ c ∈ ds, c.isDigit = true)
    (htl : ∀ c, tl.head? = some c → c.isDigit = false) :
    portValue none = some 3000 ∧
    portValue (some "") = some 3000 ∧
    (s.data = ws ++ ds ++ tl → ds ≠ [] →
      portValue (some s) = some (digitsVal ds : ℤ)) ∧
    (s.data = ws ++ '+' :: (ds ++ tl) → ds ≠ [] →
      portValue (some s) = some (digitsVal ds : ℤ)) ∧
    (s.data = ws ++ '-' :: (ds ++ tl) → ds ≠ [] →
      portValue (some s) = some (-(digitsVal ds : ℤ))) ∧
    (s.data = ws ++ tl → s ≠ "" →
      (∀ c rest, tl = c :: rest →
        isWsChar c = false ∧ c.isDigit = false ∧
        ((c = '+' ∨ c = '-') → ∀ d, rest.head? = some d → d.isDigit = false)) →
      portValue (some s) = none) := by
  have hne_of_data : ∀ l : List Char, s.data = l → l ≠ [] → s ≠ "" := by
    intro l hl hlne hc
    subst hc
    exact hlne (hl.symm.trans (show ("" : String).data = [] from rfl))
  have htake : (ds ++ tl).takeWhile Char.isDigit = ds :=
    takeWhile_append_not_head Char.isDigit ds tl hds htl
  refine ⟨by decide, by decide, ?_, ?_, ?_, ?_⟩
  · intro hdata hdne
    obtain ⟨c, ds', rfl⟩ : ∃ c ds', ds = c :: ds' := by
      cases ds with
      | nil => exact absurd rfl hdne
      | cons c ds' => exact ⟨c, ds', rfl⟩
    have hsne : s ≠ "" := hne_of_data _ hdata (by simp)
    have hcd : c.isDigit = true := hds c (by simp)
    obtain ⟨hw, hm, hp⟩ := isDigit_not_special c hcd
    have hdrop : s.data.dropWhile isWsChar = c :: (ds' ++ tl) := by
      rw [hdata, List.append_assoc, dropWhile_append_of_all isWsChar ws _ hws]
      simp [List.dropWhile_cons, hw]
    have htake' : (c :: (ds' ++ tl)).takeWhile Char.isDigit = c :: ds' := by
      simpa [List.cons_append] using htake
    simp only [portValue, jsOrString, if_neg hsne, jsParseInt, hdrop]
    simp [hm, hp, htake']
  · intro hdata hdne
    have hsne : s ≠ "" := hne_of_data _ hdata (by simp)
    have hdrop : s.data.dropWhile isWsChar = '+' :: (ds ++ tl) := by
      rw [hdata, dropWhile_append_of_all isWsChar ws _ hws]
      simp [List.dropWhile_cons, isWsChar]
    simp only [portValue, jsOrString, if_neg hsne, jsParseInt, hdrop]
    simp [htake, hdne]
  · intro hdata hdne
    have hsne : s ≠ "" := hne_of_data _ hdata (by simp)
    have hdrop : s.data.dropWhile isWsChar = '-' :: (ds ++ tl) := by
      rw [hdata, dropWhile_append_of_all isWsChar ws _ hws]
      simp [List.dropWhile_cons, isWsChar]
    simp only [portValue, jsOrString, if_neg hsne, jsParseInt, hdrop]
    simp [htake, hdne]
  · intro hdata hsne hcond
    have hdrop0 : s.data.dropWhile isWsChar = tl.dropWhile isWsChar := by
      rw [hdata, dropWhile_append_of_all isWsChar ws _ hws]
    cases htlc : tl with
    | nil =>
      have hdrop : s.data.dropWhile isWsChar = [] := by
        rw [hdrop0, htlc]; rfl
      simp only [portValue, jsOrString, if_neg hsne, jsParseInt, hdrop]
    | cons c rest =>
      obtain ⟨hwc, hdc, hsc⟩ := hcond c rest htlc
      have hdrop : s.data.dropWhile isWsChar = c :: rest := by
        rw [hdrop0, htlc]
        simp [List.dropWhile_cons, hwc]
      simp only [portValue, jsOrString, if_neg hsne, jsParseInt, hdrop]
      by_cases hcm : c = '-'
      · have hrest : rest.takeWhile Char.isDigit = [] :=
          takeWhile_eq_nil_of_head _ _ (hsc (Or.inr hcm))
        simp [hcm, hrest]
      · by_cases hcp : c = '+'
        · have hrest : rest.takeWhile Char.isDigit = [] :=
            takeWhile_eq_nil_of_head _ _ (hsc (Or.inl hcp))
          simp [hcp, hrest]
        · simp [hcm, hcp, List.takeWhile_cons, hdc]

/-! ## Claim C1 — session creation vs. first response -/

/-- C1 (counterexample): in the very first session-creating POST exchange
(initialize handshake, no token, initial state) the response carrying the
new token is sent strictly *before* the table insert: the event trace is
`[responded 200 (some 0), inserted 0]`, so the insert does not happen before
(or linearizably with) the point at which the caller can read the token —
the code stores the transport only after `handleRequest` has returned
(`src/stdio.ts:108-114`), leaving a window in which a fast follow-up using
the returned token would not find the entry. -/
theorem post_init_response_precedes_insert_cex :
    (handleHttp ⟨Method.post, none, true⟩ initSys).2.2
      = [Ev.responded 200 (some 0), Ev.inserted 0] ∧
    ¬ ((handleHttp ⟨Method.post, none, true⟩ initSys).2.2.indexOf
          (Ev.inserted 0)
        ≤ (handleHttp ⟨Method.post, none, true⟩ initSys).2.2.indexOf
            (Ev.responded 200 (some 0))) := by
  decide

/-- C1 (amended): for every session-creating POST exchange (an initialize
handshake carrying no token or an unknown token) whose generated token is
fresh, the handler first sends the response carrying the new token and then
performs the table insert, immediately after and within the same handler
activation: the trace is exactly `[responded 200 tok, inserted tok]`, and
when the handler completes the entry is present in the table. -/
theorem post_init_inserts_after_response (s : Sys) (e : Exchange)
    (hm : e.method = Method.post) (hi : e.isInit = true)
    (hs : e.sessionId = none ∨
          ∃ t, e.sessionId = some t ∧ hasTok s.table t = false)
    (hfresh : hasTok s.table s.nextTok = false) :
    (handleHttp e s).2.2
      = [Ev.responded 200 (some s.nextTok), Ev.inserted s.nextTok] ∧
    (handleHttp e s).2.1 = ⟨200, some s.nextTok⟩ ∧
    hasTok ((handleHttp e s).1).table s.nextTok = true := by
  rcases e with ⟨m, sid, ini⟩
  dsimp only at hm hi hs
  subst hm; subst hi
  have key : ∀ tbl : List (Nat × Server),
      hasTok (tbl ++ [(s.nextTok, createServer s.flag)]) s.nextTok = true := by
    intro tbl
    simp [hasTok, List.any_append]
  rcases hs with rfl | ⟨t, rfl, ht⟩
  · refine ⟨by simp [handleHttp, hfresh], by simp [handleHttp, hfresh], ?_⟩
    simp only [handleHttp, hfresh]
    simp [key]
  · refine ⟨by simp [handleHttp, ht, hfresh], by simp [handleHttp, ht, hfresh], ?_⟩
    simp only [handleHttp, ht, hfresh]
    simp [ht, hfresh, key]

/-- Witness for C1 (amended): the first handshake at startup responds with
token 0 and then inserts it. -/
theorem post_init_inserts_after_response_witness :
    (handleHttp ⟨Method.post, none, true⟩ initSys).2.2
      = [Ev.responded 200 (some 0), Ev.inserted 0] ∧
    hasTok ((handleHttp ⟨Method.post, none, true⟩ initSys).1).table 0 = true := by
  have h := post_init_inserts_after_response initSys ⟨Method.post, none, true⟩
    rfl rfl (Or.inl rfl) (by decide)
  exact ⟨h.1, h.2.2⟩

/-! ## Claim C3 — error paths leave the table unchanged -/

/-- C3: every error-path exchange at `/mcp` — a GET with a missing or
unknown session token, a DELETE with a missing or unknown token, or a
request with a disallowed verb — leaves the whole state, in particular the
session table, exactly as it was: no entry is inserted, removed or
replaced.  The corresponding responses are 400, 404 and 405. -/
theorem error_paths_preserve_table (s : Sys) (t : Nat) (ini : Bool)
    (h : hasTok s.table t = false) :
    (handleHttp ⟨Method.get, none, ini⟩ s).1 = s ∧
    (handleHttp ⟨Method.get, some t, ini⟩ s).1 = s ∧
    (handleHttp ⟨Method.delete, none, ini⟩ s).1 = s ∧
    (handleHttp ⟨Method.delete, some t, ini⟩ s).1 = s ∧
    (handleHttp ⟨Method.other, none, ini⟩ s).1 = s ∧
    (handleHttp ⟨Method.other, some t, ini⟩ s).1 = s ∧
    (handleHttp ⟨Method.get, none, ini⟩ s).2.1.status = 400 ∧
    (handleHttp ⟨Method.get, some t, ini⟩ s).2.1.status = 400 ∧
    (handleHttp ⟨Method.delete, some t, ini⟩ s).2.1.status = 404 ∧
    (handleHttp ⟨Method.other, some t, ini⟩ s).2.1.status = 405 := by
  simp [handleHttp, h]

/-- Witness for C3: at startup, a GET with token 7, a DELETE with token 7 and
a disallowed verb all leave the (empty) table unchanged. -/
theorem error_paths_preserve_table_witness :
    (handleHttp ⟨Method.get, some 7, false⟩ initSys).1 = initSys ∧
    (handleHttp ⟨Method.delete, some 7, false⟩ initSys).1 = initSys ∧
    (handleHttp ⟨Method.other, some 7, false⟩ initSys).1 = initSys := by
  have h := error_paths_preserve_table initSys 7 false (by decide)
  exact ⟨h.2.1, h.2.2.2.1, h.2.2.2.2.2.1⟩

/-! ## Claim C4 — DELETE semantics -/

/-- C4: a DELETE carrying a token present in the table returns 200 and
removes exactly that entry (afterwards the token is absent); a DELETE
carrying an absent token returns 404 and leaves the state unchanged; and any
exchange carrying an absent token behaves identically to an exchange
carrying any other absent token — so after a successful DELETE of `t`, a
following exchange carrying `t` behaves exactly like one carrying a token
that was never issued. -/
theorem delete_semantics (s : Sys) (t : Nat) (ini : Bool) :
    (hasTok s.table t = true →
      (handleHttp ⟨Method.delete, some t, ini⟩ s).2.1.status = 200 ∧
      (handleHttp ⟨Method.delete, some t, ini⟩ s).1.table
        = s.table.filter (fun p => p.1 ≠ t) ∧
      hasTok ((handleHttp ⟨Method.delete, some t, ini⟩ s).1.table) t = false) ∧
    (hasTok s.table t = false →
      (handleHttp ⟨Method.delete, some t, ini⟩ s).2.1.status = 404 ∧
      (handleHttp ⟨Method.delete, some t, ini⟩ s).1 = s) ∧
    (∀ (m : Method) (u : Nat), hasTok s.table t = false →
      hasTok s.table u = false →
      handleHttp ⟨m, some t, ini⟩ s = handleHttp ⟨m, some u, ini⟩ s) := by
  refine ⟨fun h => ?_, fun h => ?_, fun m u h1 h2 => ?_⟩
  · simp [handleHttp, h, hasTok_filter_ne]
  · simp [handleHttp, h]
  · cases m <;> simp [handleHttp, h1, h2]

/-- Witness for C4: with one live session 0, DELETE of 0 returns 200 and
removes it; DELETE of the never-issued 9 returns 404 and changes nothing. -/
theorem delete_semantics_witness :
    (handleHttp ⟨Method.delete, some 0, false⟩
        { flag := false, table := [(0, createServer false)], nextTok := 1 }).2.1.status
      = 200 ∧
    hasTok ((handleHttp ⟨Method.delete, some 0, false⟩
        { flag := false, table := [(0, createServer false)], nextTok := 1 }).1.table) 0
      = false ∧
    (handleHttp ⟨Method.delete, some 9, false⟩
        { flag := false, table := [(0, createServer false)], nextTok := 1 }).2.1.status
      = 404 := by
  have h := delete_semantics
    { flag := false, table := [(0, createServer false)], nextTok := 1 } 0 false
  have h9 := delete_semantics
    { flag := false, table := [(0, createServer false)], nextTok := 1 } 9 false
  exact ⟨(h.1 (by decide)).1, (h.1 (by decide)).2.2, (h9.2.1 (by decide)).1⟩

/-! ## Claim C6 — the dynamically-loaded capability flag -/

/-- If a token is in the table, the tool dispatch finds its session. -/
theorem filter_head_of_hasTok (table : List (Nat × Server)) (t : Nat)
    (h : hasTok table t = true) :
    ∃ p, (table.filter (fun p => p.1 = t)).head? = some p := by
  induction table with
  | nil => simp [hasTok] at h
  | cons a l ih =>
    by_cases ha : a.1 = t
    · exact ⟨a, by simp [List.filter, ha]⟩
    · have hl : hasTok l t = true := by
        simpa [hasTok, ha] using h
      obtain ⟨p, hp⟩ := ih hl
      exact ⟨p, by simpa [List.filter, ha] using hp⟩

/-- C6: the `bonusToolLoaded` flag is false at process startup; once it is
true, it remains true after every operation of the system (no operation ever
resets it); the only operation that can turn it from false to true is a
`load_bonus_tool` invocation; and a `load_bonus_tool` invocation delivered
to a live session does set it. -/
theorem bonus_flag_monotone :
    initSys.flag = false ∧
    (∀ (s : Sys) (op : SysOp), s.flag = true → (sysStep s op).flag = true) ∧
    (∀ (s : Sys) (op : SysOp), (sysStep s op).flag = true →
      s.flag = true ∨ ∃ t, op = SysOp.callTool t ToolCall.loadBonus) ∧
    (∀ (s : Sys) (t : Nat), hasTok s.table t = true →
      (sysStep s (SysOp.callTool t ToolCall.loadBonus)).flag = true) := by
  refine ⟨rfl, ?_, ?_, ?_⟩
  · rintro s (e | ⟨t, c⟩) h
    · simpa [sysStep, handleHttp_flag] using h
    · cases c <;>
        [skip; exact h; exact h; exact h; exact h; exact h; exact h]
      rcases hh : (s.table.filter (fun p => p.1 = t)).head? with _ | p <;>
        simp [sysStep, applyTool, hh, runLoadBonus, h]
  · rintro s (e | ⟨t, c⟩) h
    · left
      rwa [sysStep, handleHttp_flag] at h
    · cases c <;>
        [skip; exact Or.inl h; exact Or.inl h; exact Or.inl h;
         exact Or.inl h; exact Or.inl h; exact Or.inl h]
      exact Or.inr ⟨t, rfl⟩
  · intro s t h
    obtain ⟨p, hp⟩ := filter_head_of_hasTok s.table t h
    cases hf : s.flag <;>
      simp [sysStep, applyTool, hp, runLoadBonus, hf]

/-- Witness for C6: a set flag survives a tool call, and the first
`load_bonus_tool` call on the startup session sets it. -/
theorem bonus_flag_monotone_witness :
    (sysStep { flag := true, table := [], nextTok := 0 }
        (SysOp.callTool 0 ToolCall.hello)).flag = true ∧
    (sysStep { flag := false, table := [(0, createServer false)], nextTok := 1 }
        (SysOp.callTool 0 ToolCall.loadBonus)).flag = true :=
  ⟨bonus_flag_monotone.2.1 _ _ rfl,
   bonus_flag_monotone.2.2.2 _ 0 (by decide)⟩

/-- Witness for C8 (amended): `PORT=8080` yields 8080, the longest-prefix
case `PORT=80abc` yields 80, leading whitespace `PORT=" 8080"` and a sign
`PORT=+8080` yield 8080, the no-leading-integer case `PORT=xyz` yields NaN,
and an unset variable yields 3000. -/
theorem port_env_semantics_witness :
    portValue (some "8080") = some (8080 : ℤ) ∧
    portValue (some "80abc") = some (80 : ℤ) ∧
    portValue (some " 8080") = some (8080 : ℤ) ∧
    portValue (some "+8080") = some (8080 : ℤ) ∧
    portValue (some "xyz") = none ∧
    portValue none = some 3000 := by
  have h0 := port_env_semantics "8080" [] ['8', '0', '8', '0'] []
    (by decide) (by decide) (by decide)
  have h1 := port_env_semantics "80abc" [] ['8', '0'] ['a', 'b', 'c']
    (by decide) (by decide) (by decide)
  have h2 := port_env_semantics " 8080" [' '] ['8', '0', '8', '0'] []
    (by decide) (by decide) (by decide)
  have h3 := port_env_semantics "+8080" [] ['8', '0', '8', '0'] []
    (by decide) (by decide) (by decide)
  have h4 := port_env_semantics "xyz" [] [] ['x', 'y', 'z']
    (by decide) (by decide) (by decide)
  refine ⟨(h0.2.2.1 (by decide) (by decide)).trans (by decide),
          (h1.2.2.1 (by decide) (by decide)).trans (by decide),
          (h2.2.2.1 (by decide) (by decide)).trans (by decide),
          (h3.2.2.2.1 (by decide) (by decide)).trans (by decide),
          h4.2.2.2.2.2 (by decide) (by decide) ?_, h0.1⟩
  intro c rest hc
  rw [List.cons.injEq] at hc
  obtain ⟨hc1, hc2⟩ := hc
  subst hc1
  subst hc2
  exact ⟨by decide, by decide, fun hx => absurd hx (by decide)⟩
